import Mathlib

/-!
Verification of the adaptive reminder scheduling engine of the
SemesterStride backend (`src/services/predictionEngine.js`,
`src/services/reminderScheduler.js`, the reminder routes, and
`src/utils/encryption.js`).

Modelling conventions:
* Dates are minutes since the Unix epoch, as `Int`.  The server clock is
  taken to be UTC, so the date-fns local-time helpers `getHours` /
  `setHours` / `getDay` act on the UTC day grid (`1440` minutes per day;
  1970-01-01, day number 0, was a Thursday).
* JavaScript number arithmetic on hours is modelled with `ℚ`;
  `Math.round` is `⌊· + 1/2⌋`, matching rounding half-up.
* The Mongo collections are lists of records; `findOne` / `findById`
  return the first match, and `updateMany` / `save` rewrite the matching
  records in place.
* Fallible route handlers return `Except`; a thrown `AppError` is the
  `error` case.
-/

namespace Stride

/-- date-fns `addMinutes` (amounts are truncated to integers by date-fns). -/
def addMinutes (t : Int) (m : Int) : Int := t + m

/-- Midnight at the start of the civil day containing `t`. -/
def dayStart (t : Int) : Int := t - t % 1440

/-- JS `Date.prototype.setHours(h, 0, 0, 0)`: same day, time-of-day `h:00`. -/
def setHours (t : Int) (h : Int) : Int := dayStart t + h * 60

/-- date-fns `getHours`: the hour-of-day of `t`, in `[0, 23]`. -/
def getHours (t : Int) : Int := (t % 1440) / 60

/-- date-fns `getDay`: day of the week (0 = Sunday); 1970-01-01 was a Thursday. -/
def getDay (t : Int) : Int := ((t - t % 1440) / 1440 + 4) % 7

/-- Convenience constructor: minute `m` of hour `h` of epoch day `d`. -/
def epochMin (d h m : Int) : Int := d * 1440 + h * 60 + m

/-! ### Data model (`src/reminderJob.js` schemas) -/

/-- Reminder lifecycle states (`ReminderSchema.status` enum). -/
inductive RStatus where
  | scheduled
  | queued
  | sent
  | snoozed
  | dismissed
  | completed
deriving DecidableEq, Repr

/-- Reminder types (`ReminderSchema.type` enum). -/
inductive RType where
  | DEADLINE
  | INACTIVITY
  | BEHAVIORAL
deriving DecidableEq, Repr

/-- Interaction actions (`ReminderInteractionSchema.action` enum). -/
inductive IAction where
  | sent
  | delivered
  | snoozed
  | dismissed
  | completed
  | auto_completed
deriving DecidableEq, Repr

/-- Interaction metadata; the only field the scheduler reads is `snoozedUntil`. -/
structure InteractionMeta where
  snoozedUntil : Option Int := none
deriving DecidableEq, Repr

/-- One entry of a reminder's append-only `interactions` audit list. -/
structure Interaction where
  action : IAction
  actedAt : Int
  metadata : Option InteractionMeta := none
deriving DecidableEq, Repr

/-- A scheduled notification instance (`ReminderSchema`).  The opaque
encrypted `metadata` blob, `title`/`message` payload strings and the
constant `channel` field are carried verbatim and never interpreted by
the scheduler; `id` stands for the Mongo `_id`. -/
structure Reminder where
  id : Nat
  supabaseId : String
  type : RType
  title : String := ""
  message : String := ""
  scheduledFor : Int
  sentAt : Option Int := none
  deliveredAt : Option Int := none
  status : RStatus := .scheduled
  snoozedUntil : Option Int := none
  completionLoggedAt : Option Int := none
  foreignId : String
  interactions : List Interaction := []
deriving DecidableEq, Repr

/-- Per-tenant quiet-hours window (`quietHours` subdocument; equal values
mean the window is disabled). -/
structure QuietHours where
  startHour : Int := 0
  endHour : Int := 0
deriving DecidableEq, Repr

/-- Per-tenant tunable policy (`ReminderPreferenceSchema`; only the fields
the scheduler reads are modelled, with the schema defaults). -/
structure ReminderPreference where
  defaultLeadMinutes : Int := 180
  inactivityThresholdHours : Int := 72
  quietHours : QuietHours := {}
  smartRemindersEnabled : Bool := true
deriving DecidableEq, Repr

/-- Per-tenant learned model (`ReminderAnalyticsSchema`, with the schema
defaults used by `new ReminderAnalytics({supabaseId})`). -/
structure ReminderAnalytics where
  preferredHourOfDay : Int := 18
  preferredDayOfWeek : Int := 1
  averageCompletionLeadHours : ℚ := 6
  averageInactivityHours : ℚ := 96
  sampleSize : Nat := 0
deriving DecidableEq, Repr

/-! ### Prediction engine (`src/services/predictionEngine.js`) -/

def DEFAULT_PREFERRED_HOUR : Int := 18

/-- `SMOOTHING_FACTOR = 0.35`. -/
def SMOOTHING_FACTOR : ℚ := 35 / 100

/-- JS `Math.round`: round half toward positive infinity. -/
def jsRound (q : ℚ) : Int := ⌊q + 1 / 2⌋

/-- `clampHour` from the prediction engine: clamp below 0 and above 23,
otherwise `Math.round`.  (The `Number.isNaN` guard has no counterpart,
since `ℚ` has no NaN.) -/
def clampHour (hour : ℚ) : Int :=
  if hour < 0 then 0
  else if hour > 23 then 23
  else jsRound hour

/-- `calculatePreferredHour`: the tenant's stored preferred hour, or the
default 18 when the tenant has no analytics row. -/
def calculatePreferredHour (analytics : Option ReminderAnalytics) : Int :=
  match analytics with
  | none => DEFAULT_PREFERRED_HOUR
  | some a => clampHour (a.preferredHourOfDay : ℚ)

/-- `preference?.quietHours || { startHour: 0, endHour: 0 }`. -/
def quietHoursOf (preference : Option ReminderPreference) : QuietHours :=
  match preference with
  | some p => p.quietHours
  | none => {}

/-- `preference?.defaultLeadMinutes ?? fallbackMinutes`. -/
def leadMinutesOf (preference : Option ReminderPreference) (fallbackMinutes : Int) : Int :=
  match preference with
  | some p => p.defaultLeadMinutes
  | none => fallbackMinutes

/-- The quiet-window membership test of `suggestSchedule`, for a window
with `startHour ≠ endHour`: a plain interval when `startHour < endHour`,
a midnight-wrapping union otherwise. -/
def isQuietHour (q : QuietHours) (hour : Int) : Bool :=
  if q.startHour < q.endHour then
    decide (q.startHour ≤ hour) && decide (hour < q.endHour)
  else
    decide (hour ≥ q.startHour) || decide (hour < q.endHour)

/-- Steps 1–4 of `suggestSchedule`: anchor on the due date (or now plus
lead), subtract the lead, then force the time-of-day to the preferred
hour. -/
def candidateBeforeQuiet (now : Int) (analytics : Option ReminderAnalytics)
    (dueDate : Option Int) (preference : Option ReminderPreference)
    (fallbackMinutes : Int) : Int :=
  let preferredHour := calculatePreferredHour analytics
  let leadMinutes := leadMinutesOf preference fallbackMinutes
  let candidate0 :=
    match dueDate with
    | some d => d
    | none => addMinutes now leadMinutes
  setHours (addMinutes candidate0 (-leadMinutes)) preferredHour

/-- Step 5 of `suggestSchedule`: when the window is enabled and the
candidate's hour is quiet, shift the hour to `(endHour + 1) % 24` on the
same day. -/
def applyQuietHours (q : QuietHours) (candidate : Int) : Int :=
  if q.startHour ≠ q.endHour then
    if isQuietHour q (getHours candidate) then
      setHours candidate ((q.endHour + 1) % 24)
    else candidate
  else candidate

/-- `suggestSchedule` up to (and excluding) the past-time clamp. -/
def suggestScheduleCandidate (now : Int) (analytics : Option ReminderAnalytics)
    (dueDate : Option Int) (preference : Option ReminderPreference)
    (fallbackMinutes : Int) : Int :=
  applyQuietHours (quietHoursOf preference)
    (candidateBeforeQuiet now analytics dueDate preference fallbackMinutes)

/-- `suggestSchedule`: the candidate, clamped to
`now + max(30, leadMinutes / 2)` when it already lies in the past. -/
def suggestSchedule (now : Int) (analytics : Option ReminderAnalytics)
    (dueDate : Option Int) (preference : Option ReminderPreference)
    (fallbackMinutes : Int) : Int :=
  if suggestScheduleCandidate now analytics dueDate preference fallbackMinutes < now then
    addMinutes now (max 30 (leadMinutesOf preference fallbackMinutes / 2))
  else suggestScheduleCandidate now analytics dueDate preference fallbackMinutes

/-- `computeInactivitySchedule`: last login (or now) plus the inactivity
threshold, snapped to the preferred hour. -/
def computeInactivitySchedule (now : Int) (analytics : Option ReminderAnalytics)
    (lastLoginAt : Option Int) (preference : Option ReminderPreference) : Int :=
  let threshold :=
    match preference with
    | some p => p.inactivityThresholdHours
    | none => 72
  let preferredHour := calculatePreferredHour analytics
  let base :=
    match lastLoginAt with
    | some t => addMinutes t (threshold * 60)
    | none => addMinutes now (threshold * 60)
  setHours base preferredHour

/-- Statuses counted as live by the dedup query
(`status: { $in: ['scheduled', 'queued', 'sent', 'snoozed'] }`). -/
def isLive (s : RStatus) : Bool :=
  match s with
  | .scheduled => true
  | .queued => true
  | .sent => true
  | .snoozed => true
  | .dismissed => false
  | .completed => false

/-- The dedup-key query of `dedupeExistingReminder`: same tenant, type and
`foreignId`, and a live status. -/
def matchesDedup (sid : String) (ty : RType) (fid : String) (r : Reminder) : Bool :=
  decide (r.supabaseId = sid) && decide (r.type = ty) &&
    decide (r.foreignId = fid) && isLive r.status

/-- Replace the first element satisfying `p` by its image under `f`
(Mongoose `findOne` followed by `save` on the found document). -/
def updateFirst (p : α → Bool) (f : α → α) : List α → List α
  | [] => []
  | x :: xs => if p x then f x :: xs else x :: updateFirst p f xs

/-- `dedupeExistingReminder`: look for a live reminder with the same dedup
key; when found, update its `scheduledFor` in place and return the updated
record, otherwise leave the collection alone and return `none`. -/
def dedupeExistingReminder (sid : String) (ty : RType) (fid : String)
    (scheduledFor : Int) (db : List Reminder) : List Reminder × Option Reminder :=
  match db.find? (matchesDedup sid ty fid) with
  | some existing =>
      (updateFirst (matchesDedup sid ty fid)
        (fun r => { r with scheduledFor := scheduledFor }) db,
       some { existing with scheduledFor := scheduledFor })
  | none => (db, none)

/-- A source assignment, as read by the deadline generator
(`AssignmentSchema`; `oid` stands for `_id.toString()`). -/
structure Assignment where
  oid : String
  supabaseId : String
  title : String := ""
  dueDate : Int
  progress : Int := 0
deriving DecidableEq, Repr

/-- Loop body of `scheduleDeadlineReminders` for one assignment: skip when
smart reminders are off, otherwise compute the slot, dedupe, and only when
no live reminder with the dedup key exists append a fresh `scheduled`
record (`newId` stands for the generated Mongo `_id`). -/
def scheduleDeadlineReminderStep (now : Int) (newId : Nat)
    (analytics : Option ReminderAnalytics) (preference : Option ReminderPreference)
    (assignment : Assignment) (db : List Reminder) : List Reminder :=
  if (preference.map (·.smartRemindersEnabled)).getD false = false then db
  else
    let scheduledFor := suggestSchedule now analytics (some assignment.dueDate) preference 180
    let deduped := dedupeExistingReminder assignment.supabaseId .DEADLINE assignment.oid
      scheduledFor db
    if deduped.2.isSome then deduped.1
    else
      deduped.1 ++ [{ id := newId
                      supabaseId := assignment.supabaseId
                      type := .DEADLINE
                      title := "Upcoming: " ++ assignment.title
                      scheduledFor := scheduledFor
                      foreignId := assignment.oid }]

/-- Number of live reminders carrying the dedup key
`(sid, ty, fid)` — the records the dedup query can return. -/
def countLive (sid : String) (ty : RType) (fid : String) (db : List Reminder) : Nat :=
  (db.filter (matchesDedup sid ty fid)).length

/-- The dedup invariant of the spec: at most one live reminder per dedup
key. -/
def DedupInvariant (db : List Reminder) : Prop :=
  ∀ sid ty fid, countLive sid ty fid db ≤ 1

/-- `DISPATCH_BATCH_SIZE` (`REMINDER_MAX_BATCH_SIZE` defaults to 100). -/
def DISPATCH_BATCH_SIZE : Nat := 100

/-- The dispatch query: `scheduledFor` within the five-minute window ending
now and a status in `{scheduled, queued, snoozed}`. -/
def dueForDispatch (now : Int) (r : Reminder) : Bool :=
  decide (now - 5 ≤ r.scheduledFor) && decide (r.scheduledFor ≤ now) &&
    (match r.status with
     | .scheduled => true
     | .queued => true
     | .snoozed => true
     | _ => false)

/-- Ids of the reminders selected by one dispatch pass. -/
def dispatchDueIds (now : Int) (db : List Reminder) : List Nat :=
  ((db.filter (dueForDispatch now)).take DISPATCH_BATCH_SIZE).map (·.id)

/-- Marking a dispatched reminder: `status = sent`, `sentAt = now`, and a
`sent` interaction appended. -/
def markSent (now : Int) (r : Reminder) : Reminder :=
  { r with status := .sent
           sentAt := some now
           interactions := r.interactions ++ [{ action := .sent, actedAt := now }] }

/-- Per-document effect of the dispatch loop: a selected reminder whose
tenant has at least one push subscription is marked sent; a selected
reminder with zero subscriptions is skipped (`continue`) and left
untouched. -/
def dispatchStep (now : Int) (subscriptions : String → Nat) (dueIds : List Nat)
    (r : Reminder) : Reminder :=
  if r.id ∈ dueIds ∧ subscriptions r.supabaseId ≠ 0 then markSent now r
  else r

/-- `dispatchDueReminders`: select due reminders (batch-limited), then
apply the per-document dispatch effect.  `subscriptions` counts the push
subscriptions of a tenant; per-subscription transport failures are only
logged and do not affect the state, so they are not modelled. -/
def dispatchDueReminders (now : Int) (subscriptions : String → Nat)
    (db : List Reminder) : List Reminder :=
  db.map (dispatchStep now subscriptions (dispatchDueIds now db))

/-- Per-document effect of the retention sweep's `updateMany`: a reminder
that is `sent` and was scheduled more than 24 hours ago becomes
`dismissed`. -/
def sweepReminder (now : Int) (r : Reminder) : Reminder :=
  if r.status = .sent ∧ r.scheduledFor < now - 24 * 60 then { r with status := .dismissed }
  else r

/-- `cleanUpResolvedReminders`: the retention sweep applied to the whole
collection. -/
def cleanUpResolvedReminders (now : Int) (db : List Reminder) : List Reminder :=
  db.map (sweepReminder now)

/-! ### Interaction recording and routes
(`logReminderInteraction` in `src/services/reminderScheduler.js` and the
reminder router). -/

/-- Route-level errors of the reminder endpoints (`AppError`s). -/
inductive ApiError where
  | notFound
  | invalidAction
deriving DecidableEq, Repr

/-- `ALLOWED_ACTIONS = {delivered, snoozed, dismissed, completed}`, as the
boundary validation of `POST /:reminderId/interactions`. -/
def parseAction (s : String) : Option IAction :=
  if s = "delivered" then some .delivered
  else if s = "snoozed" then some .snoozed
  else if s = "dismissed" then some .dismissed
  else if s = "completed" then some .completed
  else none

/-- Body of `logReminderInteraction` applied to the found reminder: append
the interaction, then apply the status effect of the action. -/
def applyInteraction (now : Int) (action : IAction) (metadata : Option InteractionMeta)
    (r : Reminder) : Reminder :=
  let r := { r with interactions :=
    r.interactions ++ [{ action := action, actedAt := now, metadata := metadata }] }
  let r :=
    if action = .snoozed then
      match metadata with
      | some m =>
          match m.snoozedUntil with
          | some until' => { r with status := .snoozed
                                    snoozedUntil := some until'
                                    scheduledFor := until' }
          | none => r
      | none => r
    else r
  let r := if action = .dismissed then { r with status := .dismissed } else r
  if action = .completed then
    { r with status := .completed, completionLoggedAt := some now }
  else r

/-- Analytics state: one `ReminderAnalytics` row per tenant id. -/
abbrev AnalyticsDb := List (String × ReminderAnalytics)

/-- `ReminderAnalytics.findOne({ supabaseId })`. -/
def lookupAnalytics (adb : AnalyticsDb) (sid : String) : Option ReminderAnalytics :=
  (adb.find? (fun e => e.1 = sid)).map (·.2)

/-- `analytics.save()`: replace the tenant's row, or insert it. -/
def saveAnalytics (adb : AnalyticsDb) (sid : String) (a : ReminderAnalytics) : AnalyticsDb :=
  if (adb.find? (fun e => e.1 = sid)).isSome then
    updateFirst (fun e => e.1 = sid) (fun _ => (sid, a)) adb
  else adb ++ [(sid, a)]

/-- JS `Math.trunc ((a - b) / msPerHour)`: date-fns `differenceInHours`. -/
def differenceInHours (a b : Int) : Int :=
  Int.tdiv (a - b) 60

/-- `updateAnalyticsWithInteraction`: exponential smoothing of the
preferred hour (and, on `completed`, of the completion lead), plus the
bookkeeping fields.  `reminder.scheduledFor` is a required schema field,
so the `reminder?.scheduledFor` guard is always taken. -/
def updateAnalyticsWithInteraction (analytics : Option ReminderAnalytics)
    (reminder : Reminder) (interactionAction : IAction) (interactionDate : Int) :
    ReminderAnalytics :=
  let a := analytics.getD {}
  let newSampleSize := a.sampleSize + 1
  let interactionHour := getHours interactionDate
  let smoothedHour : ℚ :=
    SMOOTHING_FACTOR * (interactionHour : ℚ) +
      (1 - SMOOTHING_FACTOR) * (a.preferredHourOfDay : ℚ)
  let a1 := { a with preferredHourOfDay := clampHour smoothedHour }
  let a2 :=
    if interactionAction = .completed then
      let leadTimeHours := differenceInHours interactionDate reminder.scheduledFor
      let absLead : ℚ := (leadTimeHours.natAbs : ℚ)
      let smoothedLead : ℚ :=
        SMOOTHING_FACTOR * absLead + (1 - SMOOTHING_FACTOR) * a.averageCompletionLeadHours
      { a1 with averageCompletionLeadHours := max 1 smoothedLead }
    else a1
  let a3 := { a2 with preferredDayOfWeek := getDay reminder.scheduledFor }
  { a3 with sampleSize := newSampleSize }

/-- The spec's wording of the preferred-hour update:
`round(α·hour + (1−α)·previous)` clamped to `[0, 23]` (round first, then
clamp) — to be compared with the code's `clampHour`, which clamps first
and rounds last. -/
def specPreferredHourUpdate (hour previous : Int) : Int :=
  max 0 (min 23 (jsRound (SMOOTHING_FACTOR * (hour : ℚ)
    + (1 - SMOOTHING_FACTOR) * (previous : ℚ))))

/-- `n` repetitions of the same interaction against the same reminder
(the repeated-`completed` convergence experiment of the spec). -/
def iterateInteractions (r : Reminder) (t : Int) (act : IAction) :
    Nat → ReminderAnalytics → ReminderAnalytics
  | 0, a => a
  | n + 1, a =>
      iterateInteractions r t act n (updateAnalyticsWithInteraction (some a) r act t)

/-- Combined persistent state touched by interaction recording. -/
structure SystemState where
  reminders : List Reminder
  analytics : AnalyticsDb
deriving DecidableEq, Repr

/-- `logReminderInteraction`: find the reminder by id (404 when absent),
apply the interaction to it, save, then update the tenant's analytics
row. -/
def logReminderInteraction (now : Int) (reminderId : Nat) (action : IAction)
    (metadata : Option InteractionMeta) (st : SystemState) :
    Except ApiError SystemState :=
  match st.reminders.find? (fun r => r.id = reminderId) with
  | none => .error .notFound
  | some r0 =>
      let updated := applyInteraction now action metadata r0
      .ok { reminders :=
              updateFirst (fun r => r.id = reminderId) (fun _ => updated) st.reminders
            analytics :=
              saveAnalytics st.analytics updated.supabaseId
                (updateAnalyticsWithInteraction
                  (lookupAnalytics st.analytics updated.supabaseId) updated action now) }

/-- `POST /:reminderId/interactions`: validate the action against
`ALLOWED_ACTIONS` first (400 on failure), then record the interaction. -/
def postInteraction (now : Int) (reminderId : Nat) (action : String)
    (metadata : Option InteractionMeta) (st : SystemState) :
    Except ApiError SystemState :=
  match parseAction action with
  | none => .error .invalidAction
  | some act => logReminderInteraction now reminderId act metadata st

/-- Per-document effect of `POST /:reminderId/acknowledge`: set
`status = sent`, `deliveredAt`, and append a `delivered` interaction —
with no guard on the current status. -/
def acknowledgeStep (now : Int) (r : Reminder) : Reminder :=
  { r with status := .sent
           deliveredAt := some now
           interactions := r.interactions ++ [{ action := .delivered, actedAt := now }] }

/-- `POST /:reminderId/acknowledge`: find the reminder by id (404 when
absent) and apply the acknowledge effect. -/
def acknowledgeReminder (now : Int) (reminderId : Nat) (db : List Reminder) :
    Except ApiError (List Reminder) :=
  match db.find? (fun r => r.id = reminderId) with
  | none => .error .notFound
  | some _ => .ok (updateFirst (fun r => r.id = reminderId) (acknowledgeStep now) db)

/-! ### JSON values and `src/utils/encryption.js`

JavaScript values passed through `encrypt`/`decrypt` are modelled by the
mutually inductive `JsValue` (JSON values plus `undefined`; numbers are
restricted to integers, which covers every payload the scheduler
encrypts).  `JSON.stringify` emits compact JSON; `JSON.parse` is a
recursive-descent parser over the same compact grammar, fuelled by the
input length. -/

mutual
inductive JsValue where
  | undef
  | null
  | bool (b : Bool)
  | num (n : Int)
  | str (s : String)
  | arr (elems : JsElems)
  | obj (fields : JsFields)
deriving DecidableEq, Repr

inductive JsElems where
  | nil
  | cons (v : JsValue) (rest : JsElems)
deriving DecidableEq, Repr

inductive JsFields where
  | nil
  | cons (k : String) (v : JsValue) (rest : JsFields)
deriving DecidableEq, Repr
end

/-- JSON string escaping (the characters `JSON.stringify` escapes in the
payloads at hand: quote and backslash). -/
def escapeJsonChar (c : Char) : List Char :=
  if c = '"' then ['\\', '"']
  else if c = '\\' then ['\\', '\\']
  else [c]

/-- A JSON string literal. -/
def jsonQuote (s : String) : String :=
  "\"" ++ String.mk ((s.data.map escapeJsonChar).flatten) ++ "\""

mutual
/-- `JSON.stringify` (compact output; `undefined` inside a container
serialises as `null`, callers handle top-level `undefined`). -/
def jsonStringify : JsValue → String
  | .undef => "null"
  | .null => "null"
  | .bool true => "true"
  | .bool false => "false"
  | .num n => toString n
  | .str s => jsonQuote s
  | .arr xs => "[" ++ stringifyElems xs ++ "]"
  | .obj kvs => "\x7b" ++ stringifyFields kvs ++ "\x7d"

/-- Comma-separated array elements. -/
def stringifyElems : JsElems → String
  | .nil => ""
  | .cons v .nil => jsonStringify v
  | .cons v rest => jsonStringify v ++ "," ++ stringifyElems rest

/-- Comma-separated `"key":value` object members. -/
def stringifyFields : JsFields → String
  | .nil => ""
  | .cons k v .nil => jsonQuote k ++ ":" ++ jsonStringify v
  | .cons k v rest => jsonQuote k ++ ":" ++ jsonStringify v ++ "," ++ stringifyFields rest
end

/-- Numeric value of a digit run. -/
def digitsVal (ds : List Char) : Nat :=
  ds.foldl (fun a c => a * 10 + (c.toNat - 48)) 0

mutual
/-- JSON value parser (fuelled recursive descent over the compact
grammar). -/
def parseVal : Nat → List Char → Option (JsValue × List Char)
  | 0, _ => none
  | _ + 1, [] => none
  | fuel + 1, c :: cs =>
    if c = 'n' then
      match cs with
      | 'u' :: 'l' :: 'l' :: rest => some (.null, rest)
      | _ => none
    else if c = 't' then
      match cs with
      | 'r' :: 'u' :: 'e' :: rest => some (.bool true, rest)
      | _ => none
    else if c = 'f' then
      match cs with
      | 'a' :: 'l' :: 's' :: 'e' :: rest => some (.bool false, rest)
      | _ => none
    else if c = '"' then
      match parseStrBody fuel cs with
      | some (s, rest) => some (.str s, rest)
      | none => none
    else if c = '-' then
      match cs.span Char.isDigit with
      | ([], _) => none
      | (ds, rest) => some (.num (-(digitsVal ds : Int)), rest)
    else if c.isDigit then
      match (c :: cs).span Char.isDigit with
      | (ds, rest) => some (.num (digitsVal ds : Int), rest)
    else if c = '[' then
      match cs with
      | ']' :: rest => some (.arr .nil, rest)
      | _ =>
        match parseElems fuel cs with
        | some (xs, rest) => some (.arr xs, rest)
        | none => none
    else if c = '\x7b' then
      match cs with
      | '\x7d' :: rest => some (.obj .nil, rest)
      | _ =>
        match parseFields fuel cs with
        | some (kvs, rest) => some (.obj kvs, rest)
        | none => none
    else none

/-- Body of a JSON string literal, after the opening quote. -/
def parseStrBody : Nat → List Char → Option (String × List Char)
  | 0, _ => none
  | _ + 1, [] => none
  | fuel + 1, c :: cs =>
    if c = '"' then some ("", cs)
    else if c = '\\' then
      match cs with
      | e :: cs2 =>
        let unescaped : Option Char :=
          if e = '"' then some '"'
          else if e = '\\' then some '\\'
          else none
        match unescaped with
        | some d =>
          match parseStrBody fuel cs2 with
          | some (s, rest) => some (String.mk (d :: s.data), rest)
          | none => none
        | none => none
      | [] => none
    else
      match parseStrBody fuel cs with
      | some (s, rest) => some (String.mk (c :: s.data), rest)
      | none => none

/-- Elements of a non-empty JSON array, up to the closing bracket. -/
def parseElems : Nat → List Char → Option (JsElems × List Char)
  | 0, _ => none
  | fuel + 1, cs =>
    match parseVal fuel cs with
    | some (v, ',' :: rest2) =>
      match parseElems fuel rest2 with
      | some (xs, rest3) => some (.cons v xs, rest3)
      | none => none
    | some (v, ']' :: rest2) => some (.cons v .nil, rest2)
    | _ => none

/-- Members of a non-empty JSON object, up to the closing brace. -/
def parseFields : Nat → List Char → Option (JsFields × List Char)
  | 0, _ => none
  | fuel + 1, cs =>
    match cs with
    | '"' :: cs1 =>
      match parseStrBody fuel cs1 with
      | some (k, ':' :: rest2) =>
        match parseVal fuel rest2 with
        | some (v, ',' :: rest4) =>
          match parseFields fuel rest4 with
          | some (kvs, rest5) => some (.cons k v kvs, rest5)
          | none => none
        | some (v, '\x7d' :: rest4) => some (.cons k v .nil, rest4)
        | _ => none
      | _ => none
    | _ => none
end

/-- `JSON.parse`: parse the whole input as one JSON value. -/
def jsonParse (s : String) : Option JsValue :=
  match parseVal (2 * s.length + 2) s.data with
  | some (v, []) => some v
  | _ => none

/-- `JSON.parse` with the `decrypt` fallback: a string that fails to parse
is returned as-is. -/
def parseOrRaw (s : String) : JsValue :=
  match jsonParse s with
  | some v => v
  | none => .str s

def IV_LENGTH : Nat := 12

def AUTH_TAG_LENGTH : Nat := 16

/-- A stored metadata token: either the plaintext serialisation written by
the degraded (or `null`-payload) path of `encrypt`, or the binary buffer
`iv ‖ authTag ‖ ciphertext` written by the AES path.  The base64 encoding
of the buffer is transparent (injective with a total inverse), so the
bytes are kept directly. -/
inductive StoredToken where
  | plain (s : String)
  | cipherBytes (buf : List Nat)
deriving DecidableEq, Repr

/-- Failure of `decipher.final()` (GCM authentication). -/
inductive CryptoError where
  | authenticationFailed
deriving DecidableEq, Repr

/-- Model of the AES-256-GCM keystream as a key- and iv-derived XOR mask:
an abstract correct symmetric cipher (the library guarantees
`decipher ∘ cipher = id` for matching key and iv, which is all the source
relies on). -/
def gcmMask (key iv : List Nat) : Nat :=
  key.foldl (· ^^^ ·) 0 ^^^ iv.foldl (· ^^^ ·) 0

/-- Encrypting/decrypting a byte run with the modelled keystream (GCM
encryption and decryption are the same XOR). -/
def gcmCipher (key iv : List Nat) (bytes : List Nat) : List Nat :=
  bytes.map (· ^^^ gcmMask key iv)

/-- The GCM authentication tag; its contents are never inspected by the
model, only its 16-byte length matters for the buffer layout. -/
def authTagOf (_key _iv : List Nat) : List Nat :=
  List.replicate AUTH_TAG_LENGTH 0

/-- UTF-8 encoding of the plaintext, modelled at codepoint level. -/
def strBytes (s : String) : List Nat := s.data.map Char.toNat

/-- Inverse decoding of `strBytes`. -/
def strOfBytes (l : List Nat) : String := String.mk (l.map Char.ofNat)

/-- `encrypt` when `REMINDER_ENCRYPTION_KEY` is unset (or the payload is
`undefined`/`null`, which takes the same branch): a string payload is
stored as-is, anything else as its `JSON.stringify` text;
`JSON.stringify(undefined)` is `undefined`. -/
def encryptNoKey (payload : JsValue) : Option String :=
  match payload with
  | .str s => some s
  | .undef => none
  | p => some (jsonStringify p)

/-- `decrypt` when `REMINDER_ENCRYPTION_KEY` is unset: falsy tokens
(`undefined` and the empty string) give `null`; otherwise `JSON.parse`
with the raw string as fallback. -/
def decryptNoKey (token : Option String) : JsValue :=
  match token with
  | none => .null
  | some s => if s = "" then .null else parseOrRaw s

/-- `encrypt` with the key configured: `undefined`/`null` payloads skip
encryption entirely (`null` is stored as the plaintext `"null"`); all
other payloads are serialised and stored as `iv ‖ authTag ‖ ciphertext`. -/
def encryptWithKey (key iv : List Nat) (payload : JsValue) : Option StoredToken :=
  match payload with
  | .undef => none
  | .null => some (.plain "null")
  | .str s => some (.cipherBytes (iv ++ authTagOf key iv ++ gcmCipher key iv (strBytes s)))
  | p => some (.cipherBytes
      (iv ++ authTagOf key iv ++ gcmCipher key iv (strBytes (jsonStringify p))))

/-- `decrypt` with the key configured: falsy tokens give `null`; a token
that is not a well-formed cipher buffer (such as the plaintext `"null"`
stored for a `null` payload) fails GCM authentication and throws;
otherwise strip the 12-byte iv and 16-byte tag, decipher, and `JSON.parse`
with raw-string fallback. -/
def decryptWithKey (key : List Nat) (token : Option StoredToken) :
    Except CryptoError JsValue :=
  match token with
  | none => .ok .null
  | some (.plain s) => if s = "" then .ok .null else .error .authenticationFailed
  | some (.cipherBytes buf) =>
      let iv := buf.take IV_LENGTH
      let ciphertext := buf.drop (IV_LENGTH + AUTH_TAG_LENGTH)
      .ok (parseOrRaw (strOfBytes (gcmCipher key iv ciphertext)))

/-! ## Int arithmetic lemmas -/

lemma emod_setHours (t h : Int) (h0 : 0 ≤ h) (h1 : h < 24) :
    setHours t h % 1440 = h * 60 := by
  show (t - t % 1440 + h * 60) % 1440 = h * 60
  omega

lemma getHours_setHours (t h : Int) (h0 : 0 ≤ h) (h1 : h < 24) :
    getHours (setHours t h) = h := by
  show (setHours t h % 1440) / 60 = h
  rw [emod_setHours t h h0 h1]
  omega

lemma dayStart_setHours (t h : Int) (h0 : 0 ≤ h) (h1 : h < 24) :
    dayStart (setHours t h) = dayStart t := by
  show setHours t h - setHours t h % 1440 = t - t % 1440
  rw [emod_setHours t h h0 h1]
  show (t - t % 1440 + h * 60) - h * 60 = t - t % 1440
  omega

lemma getHours_bounds (t : Int) : 0 ≤ getHours t ∧ getHours t < 24 := by
  show 0 ≤ (t % 1440) / 60 ∧ (t % 1440) / 60 < 24
  omega

/-! ## C6: past-time clamp -/

/-- C6: when the candidate computed from the anchor minus the lead (after
the preferred-hour and quiet-hours adjustments) lies before now,
`suggestSchedule` replaces it with `now + max(30, leadMinutes / 2)`, and
the returned time is always ≥ now. -/
theorem past_time_clamp (now : Int) (analytics : Option ReminderAnalytics)
    (dueDate : Option Int) (preference : Option ReminderPreference) (fb : Int) :
    (suggestScheduleCandidate now analytics dueDate preference fb < now →
      suggestSchedule now analytics dueDate preference fb
        = addMinutes now (max 30 (leadMinutesOf preference fb / 2))) ∧
    now ≤ suggestSchedule now analytics dueDate preference fb := by
  constructor
  · intro h
    unfold suggestSchedule
    rw [if_pos h]
  · unfold suggestSchedule
    by_cases h : suggestScheduleCandidate now analytics dueDate preference fb < now
    · rw [if_pos h]
      have h30 : (30 : Int) ≤ max 30 (leadMinutesOf preference fb / 2) := le_max_left _ _
      show now ≤ now + max 30 (leadMinutesOf preference fb / 2)
      linarith
    · rw [if_neg h]
      exact not_lt.mp h

/-- C6 witness: a due date in the past with a 180-minute lead is clamped
to now + 90 minutes. -/
theorem past_time_clamp_witness :
    suggestSchedule 1000000 none (some 0) (some { defaultLeadMinutes := 180 }) 180
      = 1000090 :=
  ((past_time_clamp 1000000 none (some 0) (some { defaultLeadMinutes := 180 }) 180).1
    (by decide)).trans (by decide)

/-! ## C2: the deadline scenario -/

/-- C2 counterexample: for the spec scenario (lead 180, quiet hours
disabled, due 2025-03-10T09:00Z = minute 540 of epoch day 20157, no
analytics row, now = 2025-03-09T09:00Z), `suggestSchedule` does not return
2025-03-09T18:00Z; it returns 2025-03-10T18:00Z, because `setHours` keeps
the anchor's calendar day. -/
theorem deadline_scenario_counterexample :
    suggestSchedule (epochMin 20156 9 0) none (some (epochMin 20157 9 0))
        (some { defaultLeadMinutes := 180 }) 180 ≠ epochMin 20156 18 0 ∧
    suggestSchedule (epochMin 20156 9 0) none (some (epochMin 20157 9 0))
        (some { defaultLeadMinutes := 180 }) 180 = epochMin 20157 18 0 := by
  constructor
  · decide
  · decide

/-- C2 (amended): in the spec scenario the returned slot is
2025-03-10T18:00:00Z (minute 1080 of epoch day 20157) — the due date's own
day at the preferred hour — for every current time not later than that
slot. -/
theorem deadline_scenario_amended (now : Int) (h : now ≤ epochMin 20157 18 0) :
    suggestSchedule now none (some (epochMin 20157 9 0))
      (some { defaultLeadMinutes := 180 }) 180 = epochMin 20157 18 0 := by
  have hc : suggestScheduleCandidate now none (some (epochMin 20157 9 0))
      (some { defaultLeadMinutes := 180 }) 180 = epochMin 20157 18 0 := rfl
  unfold suggestSchedule
  rw [hc, if_neg (not_lt.mpr h)]

/-- C2 witness for the amended scenario theorem, at
now = 2025-03-09T09:00Z. -/
theorem deadline_scenario_amended_witness :
    suggestSchedule (epochMin 20156 9 0) none (some (epochMin 20157 9 0))
      (some { defaultLeadMinutes := 180 }) 180 = epochMin 20157 18 0 :=
  deadline_scenario_amended (epochMin 20156 9 0) (by decide)

/-! ## C4: quiet-hours avoidance -/

/-- C4 counterexample: with the quiet window `start 0 / end 23` the shift
target `(23 + 1) % 24 = 0` itself lies inside the window, so the returned
candidate's hour (0) is quiet — the claim's "never lies inside the quiet
window" fails. -/
theorem quiet_hours_counterexample :
    getHours (suggestSchedule 0 none (some (epochMin 20157 9 0))
        (some { defaultLeadMinutes := 180,
                quietHours := { startHour := 0, endHour := 23 } }) 180) = 0 ∧
    isQuietHour { startHour := 0, endHour := 23 }
      (getHours (suggestSchedule 0 none (some (epochMin 20157 9 0))
        (some { defaultLeadMinutes := 180,
                quietHours := { startHour := 0, endHour := 23 } }) 180)) = true := by
  constructor
  · decide
  · decide

/-- C4 (amended): for every enabled quiet window (hours in range,
`startHour ≠ endHour`) whose shift target `(endHour + 1) % 24` differs
from `startHour`, a candidate whose hour is quiet is moved to hour
`(endHour + 1) % 24` of the same day, and that hour is not quiet.  (When
`(endHour + 1) % 24 = startHour` — a window leaving only hour `endHour`
free — the shifted hour lands back inside the window, as the
counterexample shows.)  The final conjunct places `applyQuietHours` inside
`suggestSchedule`'s candidate pipeline. -/
theorem quiet_hours_shift (q : QuietHours) (c : Int)
    (hs0 : 0 ≤ q.startHour) (hs1 : q.startHour ≤ 23)
    (he0 : 0 ≤ q.endHour) (he1 : q.endHour ≤ 23)
    (hne : q.startHour ≠ q.endHour)
    (hq : isQuietHour q (getHours c) = true)
    (hshift : (q.endHour + 1) % 24 ≠ q.startHour) :
    applyQuietHours q c = setHours c ((q.endHour + 1) % 24) ∧
    getHours (applyQuietHours q c) = (q.endHour + 1) % 24 ∧
    dayStart (applyQuietHours q c) = dayStart c ∧
    isQuietHour q (getHours (applyQuietHours q c)) = false ∧
    (∀ now analytics dueDate preference fb, quietHoursOf preference = q →
      suggestScheduleCandidate now analytics dueDate preference fb
        = applyQuietHours q (candidateBeforeQuiet now analytics dueDate preference fb)) := by
  have happ : applyQuietHours q c = setHours c ((q.endHour + 1) % 24) := by
    unfold applyQuietHours
    rw [if_pos hne, if_pos hq]
  have hm0 : 0 ≤ (q.endHour + 1) % 24 := by omega
  have hm24 : (q.endHour + 1) % 24 < 24 := by omega
  have hgh : getHours (applyQuietHours q c) = (q.endHour + 1) % 24 := by
    rw [happ, getHours_setHours _ _ hm0 hm24]
  refine ⟨happ, hgh, ?_, ?_, ?_⟩
  · rw [happ, dayStart_setHours _ _ hm0 hm24]
  · rw [hgh]
    unfold isQuietHour
    by_cases hlt : q.startHour < q.endHour
    · rw [if_pos hlt]
      apply Bool.eq_false_iff.mpr
      simp only [ne_eq, Bool.and_eq_true, decide_eq_true_eq, not_and]
      omega
    · rw [if_neg hlt]
      apply Bool.eq_false_iff.mpr
      simp only [ne_eq, Bool.or_eq_true, decide_eq_true_eq, ge_iff_le, not_or]
      omega
  · intro now analytics dueDate preference fb hpref
    unfold suggestScheduleCandidate
    rw [hpref]

/-- C4 witness: the window `start 23 / end 7` at a candidate scheduled for
23:00 of epoch day 20157 is shifted to hour 8 of the same day, outside the
window. -/
theorem quiet_hours_shift_witness :
    getHours (applyQuietHours { startHour := 23, endHour := 7 } (epochMin 20157 23 0)) = 8 ∧
    isQuietHour { startHour := 23, endHour := 7 }
      (getHours (applyQuietHours { startHour := 23, endHour := 7 } (epochMin 20157 23 0))) = false := by
  have h := quiet_hours_shift { startHour := 23, endHour := 7 } (epochMin 20157 23 0)
    (by decide) (by decide) (by decide) (by decide) (by decide) (by decide) (by decide)
  exact ⟨h.2.1, h.2.2.2.1⟩

/-! ## C7: retention sweep -/

/-- C7: the retention sweep is the per-document `sweepReminder` applied to
the whole collection, and `sweepReminder` dismisses exactly the reminders
that are `sent` with `scheduledFor` more than 24 hours before now: a sent
reminder 25 hours old becomes dismissed, a sent reminder 1 hour old stays
sent, and a reminder in any other status is untouched. -/
theorem retention_sweep_exact (now : Int) (db : List Reminder) (r : Reminder) :
    cleanUpResolvedReminders now db = db.map (sweepReminder now) ∧
    ((sweepReminder now r).status = .dismissed ↔
      (r.status = .sent ∧ r.scheduledFor < now - 24 * 60) ∨ r.status = .dismissed) ∧
    (r.status = .sent → r.scheduledFor < now - 24 * 60 →
      sweepReminder now r = { r with status := .dismissed }) ∧
    (¬(r.status = .sent ∧ r.scheduledFor < now - 24 * 60) → sweepReminder now r = r) ∧
    (r.status = .sent → r.scheduledFor = now - 25 * 60 →
      (sweepReminder now r).status = .dismissed) ∧
    (r.status = .sent → r.scheduledFor = now - 60 →
      (sweepReminder now r).status = .sent) := by
  have hsw : sweepReminder now r =
      if r.status = .sent ∧ r.scheduledFor < now - 24 * 60
      then { r with status := .dismissed } else r := rfl
  by_cases hc : r.status = .sent ∧ r.scheduledFor < now - 24 * 60
  · rw [hsw, if_pos hc]
    refine ⟨rfl, iff_of_true rfl (Or.inl hc), fun _ _ => rfl, fun hn => absurd hc hn,
      fun _ _ => rfl, ?_⟩
    intro _ h60
    exact absurd hc.2 (by omega)
  · rw [hsw, if_neg hc]
    refine ⟨rfl, ?_, ?_, fun _ => rfl, ?_, fun hs _ => hs⟩
    · constructor
      · intro hd
        exact Or.inr hd
      · rintro (h | hd)
        · exact absurd h hc
        · exact hd
    · intro hs hlt
      exact absurd ⟨hs, hlt⟩ hc
    · intro hs h25
      exact absurd ⟨hs, by omega⟩ hc

/-- C7 witness: a sent reminder scheduled 25 hours ago is dismissed by the
sweep, at now = minute 43200. -/
theorem retention_sweep_witness :
    sweepReminder 43200
        { id := 1, supabaseId := "t1", type := .DEADLINE,
          scheduledFor := 43200 - 25 * 60, status := .sent, foreignId := "a1" }
      = { id := 1, supabaseId := "t1", type := .DEADLINE,
          scheduledFor := 43200 - 25 * 60, status := .dismissed, foreignId := "a1" } :=
  ((retention_sweep_exact 43200 []
      { id := 1, supabaseId := "t1", type := .DEADLINE,
        scheduledFor := 43200 - 25 * 60, status := .sent, foreignId := "a1" }).2.2.1
    (by decide) (by decide)).trans (by decide)

/-! ## C3: dispatch with zero subscriptions -/

/-- C3 counterexample: a reminder due two minutes ago in status
`scheduled` whose tenant has zero push subscriptions is *skipped* by the
dispatch pass (the loop hits `continue` before marking), so afterwards it
is still `scheduled` with no `sentAt` and no `sent` interaction — the
claim's `status = sent` does not hold. -/
theorem dispatch_zero_subs_counterexample :
    dueForDispatch 10000
        { id := 1, supabaseId := "u1", type := .DEADLINE, scheduledFor := 9998,
          status := .scheduled, foreignId := "a1" } = true ∧
    dispatchDueReminders 10000 (fun _ => 0)
        [{ id := 1, supabaseId := "u1", type := .DEADLINE, scheduledFor := 9998,
           status := .scheduled, foreignId := "a1" }]
      = [{ id := 1, supabaseId := "u1", type := .DEADLINE, scheduledFor := 9998,
           status := .scheduled, foreignId := "a1" }] ∧
    (RStatus.scheduled ≠ RStatus.sent) := by
  refine ⟨by decide, by decide, by decide⟩

/-- C3 (amended): a due reminder whose tenant has zero push subscriptions
is left completely unchanged by the dispatch pass (no status change, no
`sentAt`, no interaction), and the pass itself is a total function — it
raises nothing. -/
theorem dispatch_zero_subscriptions (now : Int) (subscriptions : String → Nat)
    (db : List Reminder) (r : Reminder) (hmem : r ∈ db)
    (hsubs : subscriptions r.supabaseId = 0) :
    (∀ ids, dispatchStep now subscriptions ids r = r) ∧
    dispatchDueReminders now subscriptions db
      = db.map (dispatchStep now subscriptions (dispatchDueIds now db)) ∧
    r ∈ dispatchDueReminders now subscriptions db := by
  have hstep : ∀ ids, dispatchStep now subscriptions ids r = r := by
    intro ids
    have hcond : ¬(r.id ∈ ids ∧ subscriptions r.supabaseId ≠ 0) := by
      rintro ⟨-, hne⟩
      exact hne hsubs
    unfold dispatchStep
    rw [if_neg hcond]
  refine ⟨hstep, rfl, ?_⟩
  have hx := List.mem_map_of_mem (dispatchStep now subscriptions (dispatchDueIds now db)) hmem
  rw [hstep] at hx
  exact hx

/-- C3 witness for the amended theorem, at the counterexample's input. -/
theorem dispatch_zero_subscriptions_witness :
    { id := 1, supabaseId := "u1", type := .DEADLINE, scheduledFor := 9998,
      status := .scheduled, foreignId := "a1" : Reminder }
      ∈ dispatchDueReminders 10000 (fun _ => 0)
        [{ id := 1, supabaseId := "u1", type := .DEADLINE, scheduledFor := 9998,
           status := .scheduled, foreignId := "a1" }] :=
  (dispatch_zero_subscriptions 10000 (fun _ => 0) _ _ (by decide) rfl).2.2

/-! ## C5: state-machine legality -/

/-- C5 counterexample: the acknowledge endpoint has no guard on the
current status, so a `dismissed` (terminal) reminder is resurrected to
`sent` — "from dismissed/completed no further transitions" fails. -/
theorem terminal_states_counterexample :
    acknowledgeReminder 5 1
        [{ id := 1, supabaseId := "u1", type := .DEADLINE, scheduledFor := 0,
           status := .dismissed, foreignId := "a1" }]
      = .ok [{ id := 1, supabaseId := "u1", type := .DEADLINE, scheduledFor := 0,
               status := .sent, deliveredAt := some 5, foreignId := "a1",
               interactions := [{ action := .delivered, actedAt := 5 }] }] ∧
    (RStatus.dismissed ≠ RStatus.sent) := by
  refine ⟨rfl, by decide⟩

/-- C5 (amended): the dispatcher and the retention sweep never change a
terminal (`dismissed`/`completed`) reminder — the dispatch query and the
sweep filter both exclude terminal statuses — and from `scheduled` only
`sent`, `snoozed`, `dismissed`, `completed` (or staying put) are reachable
under any operation: the dispatch step either keeps the status or sets
`sent`, the sweep either keeps it or sets `dismissed`, interaction
recording keeps it or sets `snoozed`/`dismissed`/`completed`, and
acknowledge sets `sent`.  However, interaction recording and acknowledge
are *not* guarded on terminal states (see the counterexample), so the
claim's "no operation ever changes a terminal status" holds only for the
dispatcher and the sweep. -/
theorem terminal_states_amended (now : Int) (subscriptions : String → Nat)
    (db : List Reminder) (r : Reminder)
    (hnodup : (db.map (·.id)).Nodup) (hmem : r ∈ db)
    (hterm : r.status = .dismissed ∨ r.status = .completed) :
    sweepReminder now r = r ∧
    dispatchStep now subscriptions (dispatchDueIds now db) r = r ∧
    (∀ x : Reminder, (sweepReminder now x).status = x.status ∨
      (sweepReminder now x).status = .dismissed) ∧
    (∀ (x : Reminder) ids, (dispatchStep now subscriptions ids x).status = x.status ∨
      (dispatchStep now subscriptions ids x).status = .sent) ∧
    (∀ (x : Reminder) (act : IAction) (md : Option InteractionMeta),
      (applyInteraction now act md x).status = x.status ∨
      (applyInteraction now act md x).status = .snoozed ∨
      (applyInteraction now act md x).status = .dismissed ∨
      (applyInteraction now act md x).status = .completed) ∧
    (∀ x : Reminder, (acknowledgeStep now x).status = .sent) := by
  have hnotsent : r.status ≠ .sent := by
    rcases hterm with h | h <;> simp [h]
  have hsweep : sweepReminder now r = r := by
    have : ¬(r.status = .sent ∧ r.scheduledFor < now - 24 * 60) := by
      rintro ⟨hs, -⟩
      exact hnotsent hs
    show (if r.status = .sent ∧ r.scheduledFor < now - 24 * 60
      then { r with status := .dismissed } else r) = r
    rw [if_neg this]
  have hnotdue : dueForDispatch now r = false := by
    unfold dueForDispatch
    rcases hterm with h | h <;> rw [h] <;> simp
  have hnotin : r.id ∉ dispatchDueIds now db := by
    intro hin
    unfold dispatchDueIds at hin
    obtain ⟨r', hr', hid⟩ := List.mem_map.mp hin
    have hr'f : r' ∈ (db.filter (dueForDispatch now)) := List.mem_of_mem_take hr'
    have hr'db : r' ∈ db := List.mem_of_mem_filter hr'f
    have hdue : dueForDispatch now r' = true := List.of_mem_filter hr'f
    have heq : r' = r := List.inj_on_of_nodup_map hnodup hr'db hmem hid
    rw [heq, hnotdue] at hdue
    exact Bool.false_ne_true hdue
  have hdisp : dispatchStep now subscriptions (dispatchDueIds now db) r = r := by
    have : ¬(r.id ∈ dispatchDueIds now db ∧ subscriptions r.supabaseId ≠ 0) := by
      rintro ⟨hin, -⟩
      exact hnotin hin
    unfold dispatchStep
    rw [if_neg this]
  refine ⟨hsweep, hdisp, ?_, ?_, ?_, fun x => rfl⟩
  · intro x
    by_cases hc : x.status = .sent ∧ x.scheduledFor < now - 24 * 60
    · right
      show (if x.status = .sent ∧ x.scheduledFor < now - 24 * 60
        then { x with status := .dismissed } else x).status = .dismissed
      rw [if_pos hc]
    · left
      show (if x.status = .sent ∧ x.scheduledFor < now - 24 * 60
        then { x with status := .dismissed } else x).status = x.status
      rw [if_neg hc]
  · intro x ids
    by_cases hc : x.id ∈ ids ∧ subscriptions x.supabaseId ≠ 0
    · right
      show (if x.id ∈ ids ∧ subscriptions x.supabaseId ≠ 0
        then markSent now x else x).status = .sent
      rw [if_pos hc]
      rfl
    · left
      show (if x.id ∈ ids ∧ subscriptions x.supabaseId ≠ 0
        then markSent now x else x).status = x.status
      rw [if_neg hc]
  · intro x act md
    rcases act with _ | _ | _ | _ | _ | _
    · left
      rfl
    · left
      rfl
    · rcases md with _ | m
      · left
        rfl
      · rcases hsu : m.snoozedUntil with _ | u
        · left
          simp [applyInteraction, hsu]
        · right
          left
          simp [applyInteraction, hsu]
    · right
      right
      left
      rfl
    · right
      right
      right
      rfl
    · left
      rfl

/-- C5 witness: a completed reminder is untouched by both the dispatch
step and the sweep. -/
theorem terminal_states_witness :
    sweepReminder 10000
        { id := 2, supabaseId := "u2", type := .DEADLINE, scheduledFor := 0,
          status := .completed, foreignId := "a2" }
      = { id := 2, supabaseId := "u2", type := .DEADLINE, scheduledFor := 0,
          status := .completed, foreignId := "a2" } :=
  (terminal_states_amended 10000 (fun _ => 1)
    [{ id := 2, supabaseId := "u2", type := .DEADLINE, scheduledFor := 0,
       status := .completed, foreignId := "a2" }]
    { id := 2, supabaseId := "u2", type := .DEADLINE, scheduledFor := 0,
      status := .completed, foreignId := "a2" }
    (by decide) (by decide) (Or.inr rfl)).1

/-! ## C1: deduplication -/

lemma length_updateFirst (p : α → Bool) (f : α → α) (l : List α) :
    (updateFirst p f l).length = l.length := by
  induction l with
  | nil => rfl
  | cons x xs ih =>
    show (if p x then f x :: xs else x :: updateFirst p f xs).length = (x :: xs).length
    by_cases hp : p x
    · rw [if_pos hp]
      simp
    · rw [if_neg hp]
      simp [ih]

lemma filter_updateFirst (q p : α → Bool) (f : α → α) (hf : ∀ x, q (f x) = q x)
    (l : List α) :
    ((updateFirst p f l).filter q).length = (l.filter q).length := by
  induction l with
  | nil => rfl
  | cons x xs ih =>
    show ((if p x then f x :: xs else x :: updateFirst p f xs).filter q).length
      = ((x :: xs).filter q).length
    by_cases hp : p x
    · rw [if_pos hp, List.filter_cons, List.filter_cons, hf x]
      by_cases hq : q x
      · simp [hq]
      · simp [hq]
    · rw [if_neg hp, List.filter_cons, List.filter_cons]
      by_cases hq : q x
      · simp [hq, ih]
      · simp [hq, ih]

/-- The per-key live count is untouched when a dedup hit updates a
reminder's `scheduledFor`: the key fields and the status are unchanged. -/
lemma countLive_updateFirst (sid' : String) (ty' : RType) (fid' : String)
    (sid : String) (ty : RType) (fid : String) (sched : Int) (db : List Reminder) :
    countLive sid' ty' fid'
        (updateFirst (matchesDedup sid ty fid)
          (fun r => { r with scheduledFor := sched }) db)
      = countLive sid' ty' fid' db :=
  filter_updateFirst (matchesDedup sid' ty' fid') (matchesDedup sid ty fid)
    (fun r => { r with scheduledFor := sched }) (fun _ => rfl) db

/-- Generic invariant preservation for the dedupe-then-insert pattern
shared by the three generators (stated for the deadline generator's
record shape). -/
lemma dedupInvariant_upsert (sid : String) (ty : RType) (fid : String)
    (sched : Int) (newId : Nat) (ttl : String) (db : List Reminder)
    (hinv : DedupInvariant db) :
    DedupInvariant
      (if (dedupeExistingReminder sid ty fid sched db).2.isSome
       then (dedupeExistingReminder sid ty fid sched db).1
       else (dedupeExistingReminder sid ty fid sched db).1 ++
         [{ id := newId, supabaseId := sid, type := ty, title := ttl,
            scheduledFor := sched, foreignId := fid }]) := by
  cases hfind : db.find? (matchesDedup sid ty fid) with
  | some ex =>
    have hd : dedupeExistingReminder sid ty fid sched db
        = (updateFirst (matchesDedup sid ty fid)
            (fun r => { r with scheduledFor := sched }) db,
           some { ex with scheduledFor := sched }) := by
      unfold dedupeExistingReminder
      rw [hfind]
    rw [hd]
    simp only [Option.isSome_some, if_true]
    intro sid' ty' fid'
    rw [show countLive sid' ty' fid'
        (updateFirst (matchesDedup sid ty fid)
          (fun r => { r with scheduledFor := sched }) db)
      = countLive sid' ty' fid' db from countLive_updateFirst ..]
    exact hinv sid' ty' fid'
  | none =>
    have hd : dedupeExistingReminder sid ty fid sched db = (db, none) := by
      unfold dedupeExistingReminder
      rw [hfind]
    rw [hd]
    simp only [Option.isSome_none, Bool.false_eq_true, if_false]
    intro sid' ty' fid'
    show ((db ++ [_]).filter (matchesDedup sid' ty' fid')).length ≤ 1
    rw [List.filter_append, List.length_append]
    by_cases hm : matchesDedup sid' ty' fid'
        { id := newId, supabaseId := sid, type := ty, title := ttl,
          scheduledFor := sched, foreignId := fid } = true
    · have hkey : sid = sid' ∧ ty = ty' ∧ fid = fid' := by
        unfold matchesDedup at hm
        simp only [Bool.and_eq_true, decide_eq_true_eq] at hm
        exact ⟨hm.1.1.1, hm.1.1.2, hm.1.2⟩
      obtain ⟨h1, h2, h3⟩ := hkey
      subst h1
      subst h2
      subst h3
      have hzero : db.filter (matchesDedup sid ty fid) = [] :=
        List.filter_eq_nil_iff.mpr (fun r hr => by
          have := List.find?_eq_none.mp hfind r hr
          simpa using this)
      rw [hzero]
      simp [hm]
    · have hone : (List.filter (matchesDedup sid' ty' fid')
          [{ id := newId, supabaseId := sid, type := ty, title := ttl,
             scheduledFor := sched, foreignId := fid }]).length = 0 := by
        simp [hm]
      rw [hone]
      have := hinv sid' ty' fid'
      unfold countLive at this
      omega

/-- `scheduleDeadlineReminderStep` preserves the dedup invariant. -/
lemma dedupInvariant_step (now : Int) (newId : Nat)
    (an : Option ReminderAnalytics) (pref : Option ReminderPreference)
    (a : Assignment) (db : List Reminder) (hinv : DedupInvariant db) :
    DedupInvariant (scheduleDeadlineReminderStep now newId an pref a db) := by
  have hrw : scheduleDeadlineReminderStep now newId an pref a db
      = if (pref.map (·.smartRemindersEnabled)).getD false = false then db
        else
          (if (dedupeExistingReminder a.supabaseId .DEADLINE a.oid
                (suggestSchedule now an (some a.dueDate) pref 180) db).2.isSome
           then (dedupeExistingReminder a.supabaseId .DEADLINE a.oid
                (suggestSchedule now an (some a.dueDate) pref 180) db).1
           else (dedupeExistingReminder a.supabaseId .DEADLINE a.oid
                (suggestSchedule now an (some a.dueDate) pref 180) db).1 ++
             [{ id := newId, supabaseId := a.supabaseId, type := .DEADLINE,
                title := "Upcoming: " ++ a.title,
                scheduledFor := suggestSchedule now an (some a.dueDate) pref 180,
                foreignId := a.oid }]) := rfl
  rw [hrw]
  by_cases hsm : (pref.map (·.smartRemindersEnabled)).getD false = false
  · rw [if_pos hsm]
    exact hinv
  · rw [if_neg hsm]
    exact dedupInvariant_upsert a.supabaseId .DEADLINE a.oid
      (suggestSchedule now an (some a.dueDate) pref 180) newId
      ("Upcoming: " ++ a.title) db hinv

/-- C1: a dedup hit updates the found live reminder's `scheduledFor` in
place (same collection size) and returns the updated record, so the
calling generator creates nothing; and the generator+dedup step — run
twice, with any inputs — keeps the invariant that no dedup key has two
live reminders. -/
theorem dedup_invariant_two_runs
    (now1 now2 : Int) (id1 id2 : Nat)
    (an1 an2 : Option ReminderAnalytics) (pref1 pref2 : Option ReminderPreference)
    (a1 a2 : Assignment) (db : List Reminder) (hinv : DedupInvariant db) :
    DedupInvariant
      (scheduleDeadlineReminderStep now2 id2 an2 pref2 a2
        (scheduleDeadlineReminderStep now1 id1 an1 pref1 a1 db)) ∧
    (∀ (sid : String) (ty : RType) (fid : String) (sched : Int) (ex : Reminder),
      db.find? (matchesDedup sid ty fid) = some ex →
      dedupeExistingReminder sid ty fid sched db
        = (updateFirst (matchesDedup sid ty fid)
            (fun r => { r with scheduledFor := sched }) db,
           some { ex with scheduledFor := sched }) ∧
      (dedupeExistingReminder sid ty fid sched db).1.length = db.length) ∧
    (∀ ex : Reminder,
      db.find? (matchesDedup a1.supabaseId .DEADLINE a1.oid) = some ex →
      (scheduleDeadlineReminderStep now1 id1 an1 pref1 a1 db).length = db.length) := by
  refine ⟨dedupInvariant_step now2 id2 an2 pref2 a2 _
    (dedupInvariant_step now1 id1 an1 pref1 a1 db hinv), ?_, ?_⟩
  · intro sid ty fid sched ex hfind
    have hd : dedupeExistingReminder sid ty fid sched db
        = (updateFirst (matchesDedup sid ty fid)
            (fun r => { r with scheduledFor := sched }) db,
           some { ex with scheduledFor := sched }) := by
      unfold dedupeExistingReminder
      rw [hfind]
    exact ⟨hd, by rw [hd]; exact length_updateFirst ..⟩
  · intro ex hfind
    have hd : dedupeExistingReminder a1.supabaseId .DEADLINE a1.oid
        (suggestSchedule now1 an1 (some a1.dueDate) pref1 180) db
        = (updateFirst (matchesDedup a1.supabaseId .DEADLINE a1.oid)
            (fun r => { r with scheduledFor := suggestSchedule now1 an1 (some a1.dueDate) pref1 180 }) db,
           some { ex with scheduledFor := suggestSchedule now1 an1 (some a1.dueDate) pref1 180 }) := by
      unfold dedupeExistingReminder
      rw [hfind]
    have hrw : scheduleDeadlineReminderStep now1 id1 an1 pref1 a1 db
        = if (pref1.map (·.smartRemindersEnabled)).getD false = false then db
          else
            (if (dedupeExistingReminder a1.supabaseId .DEADLINE a1.oid
                  (suggestSchedule now1 an1 (some a1.dueDate) pref1 180) db).2.isSome
             then (dedupeExistingReminder a1.supabaseId .DEADLINE a1.oid
                  (suggestSchedule now1 an1 (some a1.dueDate) pref1 180) db).1
             else (dedupeExistingReminder a1.supabaseId .DEADLINE a1.oid
                  (suggestSchedule now1 an1 (some a1.dueDate) pref1 180) db).1 ++
               [{ id := id1, supabaseId := a1.supabaseId, type := .DEADLINE,
                  title := "Upcoming: " ++ a1.title,
                  scheduledFor := suggestSchedule now1 an1 (some a1.dueDate) pref1 180,
                  foreignId := a1.oid }]) := rfl
    rw [hrw]
    by_cases hsm : (pref1.map (·.smartRemindersEnabled)).getD false = false
    · rw [if_pos hsm]
    · rw [if_neg hsm, hd]
      simp only [Option.isSome_some, if_true]
      exact length_updateFirst ..

/-! ## C8: analytics smoothing -/

lemma preferredHourOfDay_update (analytics : Option ReminderAnalytics)
    (r : Reminder) (act : IAction) (t : Int) :
    (updateAnalyticsWithInteraction analytics r act t).preferredHourOfDay
      = clampHour (SMOOTHING_FACTOR * ((getHours t : Int) : ℚ)
          + (1 - SMOOTHING_FACTOR) * (((analytics.getD {}).preferredHourOfDay : Int) : ℚ)) := by
  unfold updateAnalyticsWithInteraction
  by_cases hact : act = .completed
  · simp only [hact, if_pos]
  · simp only [if_neg hact]

lemma smooth_range (h p : Int) (hh0 : 0 ≤ h) (hh23 : h ≤ 23)
    (hp0 : 0 ≤ p) (hp23 : p ≤ 23) :
    0 ≤ SMOOTHING_FACTOR * (h : ℚ) + (1 - SMOOTHING_FACTOR) * (p : ℚ) ∧
    SMOOTHING_FACTOR * (h : ℚ) + (1 - SMOOTHING_FACTOR) * (p : ℚ) ≤ 23 := by
  unfold SMOOTHING_FACTOR
  have h1 : (h : ℚ) ≤ 23 := by exact_mod_cast hh23
  have h2 : (0 : ℚ) ≤ (h : ℚ) := by exact_mod_cast hh0
  have h3 : (p : ℚ) ≤ 23 := by exact_mod_cast hp23
  have h4 : (0 : ℚ) ≤ (p : ℚ) := by exact_mod_cast hp0
  constructor <;> linarith

lemma jsRound_range (q : ℚ) (h0 : 0 ≤ q) (h23 : q ≤ 23) :
    0 ≤ jsRound q ∧ jsRound q ≤ 23 := by
  unfold jsRound
  constructor
  · exact Int.le_floor.mpr (by push_cast; linarith)
  · have hle : ⌊q + 1/2⌋ ≤ ⌊(23 : ℚ) + 1/2⌋ := Int.floor_mono (by linarith)
    have h23f : ⌊(23 : ℚ) + 1/2⌋ = 23 := by norm_num
    omega

lemma clampHour_of_range (q : ℚ) (h0 : 0 ≤ q) (h23 : q ≤ 23) :
    clampHour q = jsRound q := by
  unfold clampHour
  rw [if_neg (not_lt.mpr h0), if_neg (not_lt.mpr h23)]

/-- The smoothing formula as exact integer division
(`⌊0.35·h + 0.65·p + 1/2⌋ = (14h + 26p + 20) / 40`). -/
lemma jsRound_smooth (h p : Int) :
    jsRound (SMOOTHING_FACTOR * (h : ℚ) + (1 - SMOOTHING_FACTOR) * (p : ℚ))
      = (14 * h + 26 * p + 20) / 40 := by
  unfold jsRound SMOOTHING_FACTOR
  have e : (35 / 100 : ℚ) * (h : ℚ) + (1 - 35 / 100) * (p : ℚ) + 1 / 2
      = ((14 * h + 26 * p + 20 : Int) : ℚ) / ((40 : Nat) : ℚ) := by
    push_cast
    ring
  rw [e, Rat.floor_intCast_div_natCast]
  norm_num

/-- C8: on every interaction, the stored preferred hour becomes
`round(0.35·hour(interactionTime) + 0.65·previous)` clamped to `[0, 23]`
(for any in-range previous value the clamp is inert, so the code's
clamp-then-round `clampHour` agrees with the spec's round-then-clamp),
the result stays in `[0, 23]`, and ten repeated `completed` interactions
at hour 20 starting from the default 18 land on 19 — within 1 of 20. -/
theorem smoothing_convergence (a : ReminderAnalytics) (r : Reminder)
    (act : IAction) (t : Int)
    (hp0 : 0 ≤ a.preferredHourOfDay) (hp23 : a.preferredHourOfDay ≤ 23) :
    (updateAnalyticsWithInteraction (some a) r act t).preferredHourOfDay
      = specPreferredHourUpdate (getHours t) a.preferredHourOfDay ∧
    0 ≤ (updateAnalyticsWithInteraction (some a) r act t).preferredHourOfDay ∧
    (updateAnalyticsWithInteraction (some a) r act t).preferredHourOfDay ≤ 23 ∧
    (iterateInteractions r (epochMin 0 20 0) .completed 10 {}).preferredHourOfDay = 19 ∧
    20 - (iterateInteractions r (epochMin 0 20 0) .completed 10 {}).preferredHourOfDay ≤ 1 := by
  have hgh := getHours_bounds t
  have hs := smooth_range (getHours t) a.preferredHourOfDay hgh.1 (by omega) hp0 hp23
  have hclamp := clampHour_of_range _ hs.1 hs.2
  have hjr := jsRound_range _ hs.1 hs.2
  have hupd : (updateAnalyticsWithInteraction (some a) r act t).preferredHourOfDay
      = jsRound (SMOOTHING_FACTOR * ((getHours t : Int) : ℚ)
          + (1 - SMOOTHING_FACTOR) * ((a.preferredHourOfDay : Int) : ℚ)) := by
    rw [preferredHourOfDay_update]
    exact hclamp
  have hspec : specPreferredHourUpdate (getHours t) a.preferredHourOfDay
      = jsRound (SMOOTHING_FACTOR * ((getHours t : Int) : ℚ)
          + (1 - SMOOTHING_FACTOR) * ((a.preferredHourOfDay : Int) : ℚ)) := by
    unfold specPreferredHourUpdate
    omega
  have hstep : ∀ b : ReminderAnalytics, 0 ≤ b.preferredHourOfDay →
      b.preferredHourOfDay ≤ 23 →
      (updateAnalyticsWithInteraction (some b) r .completed
        (epochMin 0 20 0)).preferredHourOfDay
        = (14 * 20 + 26 * b.preferredHourOfDay + 20) / 40 := by
    intro b hb0 hb23
    have hg20 : getHours (epochMin 0 20 0) = 20 := by decide
    have hsb := smooth_range (getHours (epochMin 0 20 0)) b.preferredHourOfDay
      (getHours_bounds _).1 (by rw [hg20]; decide) hb0 hb23
    rw [preferredHourOfDay_update]
    simp only [Option.getD_some]
    rw [clampHour_of_range _ hsb.1 hsb.2, jsRound_smooth, hg20]
  have hfix : ∀ (n : Nat) (b : ReminderAnalytics), b.preferredHourOfDay = 19 →
      (iterateInteractions r (epochMin 0 20 0) .completed n b).preferredHourOfDay = 19 := by
    intro n
    induction n with
    | zero => intro b hb; exact hb
    | succ n ih =>
      intro b hb
      show (iterateInteractions r (epochMin 0 20 0) .completed n
        (updateAnalyticsWithInteraction (some b) r .completed
          (epochMin 0 20 0))).preferredHourOfDay = 19
      apply ih
      rw [hstep b (by omega) (by omega), hb]
      decide
  have hten : (iterateInteractions r (epochMin 0 20 0) .completed 10
      {}).preferredHourOfDay = 19 := by
    show (iterateInteractions r (epochMin 0 20 0) .completed 9
      (updateAnalyticsWithInteraction (some {}) r .completed
        (epochMin 0 20 0))).preferredHourOfDay = 19
    apply hfix
    rw [hstep {} (by decide) (by decide)]
    decide
  refine ⟨hupd.trans hspec.symm, ?_, ?_, hten, by omega⟩
  · rw [hupd]
    exact hjr.1
  · rw [hupd]
    exact hjr.2

/-- C8 witness: one interaction at hour 20 against the default analytics
row moves the stored preferred hour to 19 = round(0.35·20 + 0.65·18). -/
theorem smoothing_convergence_witness :
    (updateAnalyticsWithInteraction (some {})
        { id := 1, supabaseId := "u1", type := .DEADLINE, scheduledFor := 0,
          foreignId := "a1" }
        .completed (epochMin 0 20 0)).preferredHourOfDay
      = specPreferredHourUpdate 20 18 :=
  (smoothing_convergence {}
    { id := 1, supabaseId := "u1", type := .DEADLINE, scheduledFor := 0,
      foreignId := "a1" }
    .completed (epochMin 0 20 0) (by decide) (by decide)).1

/-! ## C9: interaction-recording errors -/

/-- C9 counterexample: an unknown reminder id combined with an invalid
action fails with `invalidAction`, not `notFound` — the action check runs
first — so "fails with NotFound exactly when the id is unknown" does not
hold. -/
theorem interaction_errors_counterexample :
    postInteraction 0 1 "bogus" none { reminders := [], analytics := [] }
      = .error .invalidAction ∧
    (ApiError.invalidAction ≠ ApiError.notFound) := by
  exact ⟨rfl, by decide⟩

/-- C9 (amended): recording an interaction fails with `invalidAction`
exactly when the action is not one of
`{delivered, snoozed, dismissed, completed}`, and fails with `notFound`
exactly when the action is valid *and* the reminder id is unknown (the
action check precedes the lookup).  In both failure cases the returned
`Except` carries no state: both checks run before any write, mirroring
the code's check-before-save order. -/
theorem interaction_errors (now : Int) (reminderId : Nat) (action : String)
    (md : Option InteractionMeta) (st : SystemState) :
    (parseAction action = none ↔
      postInteraction now reminderId action md st = .error .invalidAction) ∧
    ((∃ act, parseAction action = some act) →
      ((∀ r ∈ st.reminders, r.id ≠ reminderId) ↔
        postInteraction now reminderId action md st = .error .notFound)) := by
  constructor
  · constructor
    · intro h
      unfold postInteraction
      rw [h]
    · intro h
      by_cases hp : parseAction action = none
      · exact hp
      · obtain ⟨act, hact⟩ := Option.ne_none_iff_exists'.mp hp
        unfold postInteraction at h
        rw [hact] at h
        unfold logReminderInteraction at h
        cases hfind : st.reminders.find? (fun r => r.id = reminderId) with
        | some r0 =>
          rw [hfind] at h
          exact absurd h (by simp)
        | none =>
          rw [hfind] at h
          exact absurd h (by simp)
  · rintro ⟨act, hact⟩
    constructor
    · intro hall
      have hfind : st.reminders.find? (fun r => r.id = reminderId) = none :=
        List.find?_eq_none.mpr (fun r hr => by simpa using hall r hr)
      unfold postInteraction
      rw [hact]
      unfold logReminderInteraction
      rw [hfind]
    · intro h r hr hid
      unfold postInteraction at h
      rw [hact] at h
      unfold logReminderInteraction at h
      cases hfind : st.reminders.find? (fun r => r.id = reminderId) with
      | some r0 =>
        rw [hfind] at h
        exact absurd h (by simp)
      | none =>
        have := List.find?_eq_none.mp hfind r hr
        simp [hid] at this

/-- C9 witness: a valid action against an empty collection yields
`notFound`. -/
theorem interaction_errors_witness :
    postInteraction 0 1 "snoozed" none { reminders := [], analytics := [] }
      = .error .notFound :=
  ((interaction_errors 0 1 "snoozed" none { reminders := [], analytics := [] }).2
    ⟨.snoozed, rfl⟩).mp (by simp)

/-! ## C10: encryption round-trip -/

lemma gcmCipher_gcmCipher (key iv : List Nat) (l : List Nat) :
    gcmCipher key iv (gcmCipher key iv l) = l := by
  unfold gcmCipher
  rw [List.map_map]
  have hinvol : ((· ^^^ gcmMask key iv) ∘ (· ^^^ gcmMask key iv)) = id := by
    funext x
    show (x ^^^ gcmMask key iv) ^^^ gcmMask key iv = x
    rw [Nat.xor_assoc, Nat.xor_self, Nat.xor_zero]
  rw [hinvol, List.map_id]

lemma strOfBytes_strBytes (s : String) : strOfBytes (strBytes s) = s := by
  unfold strOfBytes strBytes
  rw [List.map_map]
  have hid : (Char.ofNat ∘ Char.toNat) = id := by
    funext c
    exact Char.ofNat_toNat c
  rw [hid, List.map_id]

lemma decryptWithKey_cipher (key iv : List Nat) (hiv : iv.length = IV_LENGTH)
    (s : String) :
    decryptWithKey key (some (.cipherBytes
        (iv ++ authTagOf key iv ++ gcmCipher key iv (strBytes s))))
      = .ok (parseOrRaw s) := by
  have htake : (iv ++ authTagOf key iv ++ gcmCipher key iv (strBytes s)).take IV_LENGTH
      = iv := by
    rw [List.append_assoc, List.take_left' hiv]
  have hlen : (iv ++ authTagOf key iv).length = IV_LENGTH + AUTH_TAG_LENGTH := by
    rw [List.length_append, hiv]
    unfold authTagOf
    rw [List.length_replicate]
  have hdrop : (iv ++ authTagOf key iv ++ gcmCipher key iv (strBytes s)).drop
      (IV_LENGTH + AUTH_TAG_LENGTH) = gcmCipher key iv (strBytes s) :=
    List.drop_left' hlen
  show Except.ok (parseOrRaw (strOfBytes (gcmCipher key
      ((iv ++ authTagOf key iv ++ gcmCipher key iv (strBytes s)).take IV_LENGTH)
      ((iv ++ authTagOf key iv ++ gcmCipher key iv (strBytes s)).drop
        (IV_LENGTH + AUTH_TAG_LENGTH)))))
    = Except.ok (parseOrRaw s)
  rw [htake, hdrop, gcmCipher_gcmCipher, strOfBytes_strBytes]

lemma encryptNoKey_eq (p : JsValue) (hstr : ∀ s, p ≠ .str s) (hundef : p ≠ .undef) :
    encryptNoKey p = some (jsonStringify p) := by
  cases p with
  | undef => exact absurd rfl hundef
  | str s => exact absurd rfl (hstr s)
  | null => rfl
  | bool b => rfl
  | num n => rfl
  | arr xs => rfl
  | obj kvs => rfl

lemma encryptWithKey_eq (key iv : List Nat) (p : JsValue)
    (hstr : ∀ s, p ≠ .str s) (hnull : p ≠ .null) (hundef : p ≠ .undef) :
    encryptWithKey key iv p = some (.cipherBytes
      (iv ++ authTagOf key iv ++ gcmCipher key iv (strBytes (jsonStringify p)))) := by
  cases p with
  | undef => exact absurd rfl hundef
  | null => exact absurd rfl hnull
  | str s => exact absurd rfl (hstr s)
  | bool b => rfl
  | num n => rfl
  | arr xs => rfl
  | obj kvs => rfl

/-- C10 counterexample: the string payload `"123"` round-trips to the
*number* 123 (the serialisation stores strings raw and `decrypt` always
tries `JSON.parse`), and with the key configured `decrypt(encrypt(null))`
throws: `encrypt` stores `null` as the plaintext `"null"`, which fails
GCM authentication on the way back. -/
theorem encryption_roundtrip_counterexample :
    decryptNoKey (encryptNoKey (.str "123")) = .num 123 ∧
    (JsValue.num 123 ≠ JsValue.str "123") ∧
    decryptWithKey [7] (encryptWithKey [7] (List.replicate 12 0) .null)
      = .error .authenticationFailed := by
  refine ⟨rfl, by decide, rfl⟩

/-- C10 (amended): for every JSON-serialisable payload that is neither a
string nor `null`/`undefined`, `decrypt ∘ encrypt` is the identity in both
configurations (key present and absent); string payloads come back as
`JSON.parse` of the string when it parses (raw otherwise); with the key
absent a `null` payload still round-trips to `null`; and `encrypt` of
`null`/`undefined` never throws — it returns the JSON text `"null"`
(stored unencrypted even when the key is configured, which is why the
keyed `null` round-trip fails authentication) and `undefined`
respectively. -/
theorem encryption_roundtrip (key iv : List Nat) (hiv : iv.length = IV_LENGTH)
    (p : JsValue)
    (hser : jsonParse (jsonStringify p) = some p)
    (hstr : ∀ s, p ≠ .str s) (hnull : p ≠ .null) (hundef : p ≠ .undef) :
    decryptWithKey key (encryptWithKey key iv p) = .ok p ∧
    decryptNoKey (encryptNoKey p) = p ∧
    decryptNoKey (encryptNoKey .null) = .null ∧
    encryptNoKey .null = some "null" ∧
    encryptNoKey .undef = none ∧
    encryptWithKey key iv .null = some (.plain "null") ∧
    encryptWithKey key iv .undef = none := by
  have hne : jsonStringify p ≠ "" := by
    intro h0
    rw [h0] at hser
    exact Option.noConfusion hser
  refine ⟨?_, ?_, rfl, rfl, rfl, rfl, rfl⟩
  · rw [encryptWithKey_eq key iv p hstr hnull hundef,
      decryptWithKey_cipher key iv hiv (jsonStringify p)]
    unfold parseOrRaw
    rw [hser]
  · rw [encryptNoKey_eq p hstr hundef]
    show (if jsonStringify p = "" then JsValue.null else parseOrRaw (jsonStringify p)) = p
    rw [if_neg hne]
    unfold parseOrRaw
    rw [hser]

/-- C10 witness: the integer payload 7 round-trips through the keyed
cipher. -/
theorem encryption_roundtrip_witness :
    decryptWithKey [7] (encryptWithKey [7] (List.replicate 12 0) (.num 7))
      = .ok (.num 7) :=
  (encryption_roundtrip [7] (List.replicate 12 0) (by decide) (.num 7) rfl
    (fun s h => JsValue.noConfusion h) (by decide) (by decide)).1

/-- C1 witness: two runs of the deadline generator step for the same
assignment, starting from the empty collection, leave at most one live
reminder per dedup key. -/
theorem dedup_invariant_two_runs_witness :
    DedupInvariant
      (scheduleDeadlineReminderStep 200 2 none (some {})
        { oid := "a1", supabaseId := "u1", dueDate := 100000 }
        (scheduleDeadlineReminderStep 100 1 none (some {})
          { oid := "a1", supabaseId := "u1", dueDate := 100000 } [])) :=
  (dedup_invariant_two_runs 100 200 1 2 none none (some {}) (some {})
    { oid := "a1", supabaseId := "u1", dueDate := 100000 }
    { oid := "a1", supabaseId := "u1", dueDate := 100000 } []
    (fun sid ty fid => by simp [countLive])).1

end Stride
